import Mathlib

/-!
Verification of the user-management, localization and bot-routing core of the
flibusta_kindle_bot repository.  The Go sources (pkg/models/user.go,
internal/user/repository.go, internal/user/manager.go, internal/i18n/i18n.go,
internal/bot/handler.go) are shallowly embedded below: Go strings become Lean
strings manipulated through their character lists (the validation and
detection code only compares ASCII data, for which byte-level and
character-level operations agree), time.Time values become an explicit
Nat-valued clock passed to each operation, and the in-memory repository
becomes a function from Telegram ids to optional users.
-/

namespace FKB

/-- Errors of the user package: ErrUserNotFound and ErrInvalidEmail from
internal/user/manager.go. -/
inductive Err where
  | userNotFound
  | invalidEmail
deriving DecidableEq

/-- The User record from pkg/models/user.go.  Timestamps are modelled as
natural numbers supplied by the caller as the current clock value. -/
structure User where
  id : Int
  telegramID : Int
  username : String
  firstName : String
  lastName : String
  kindleEmail : String
  language : String
  createdAt : Nat
  updatedAt : Nat
  booksSent : Int
  lastActive : Nat
  isActive : Bool
  isBanned : Bool
deriving DecidableEq

/-- The Preferences record from pkg/models/user.go. -/
structure Preferences where
  kindleEmail : String
  language : String
  preferredFormat : String
deriving DecidableEq

/-- HasKindleEmail from pkg/models/user.go: the Kindle email is configured
iff it is non-empty. -/
def User.hasKindleEmail (u : User) : Bool :=
  u.kindleEmail ≠ ""

/-- The state of MemoryRepository from internal/user/repository.go: a map
from Telegram id to the stored user. -/
def Store : Type := Int → Option User

/-- An empty repository, as built by NewMemoryRepository. -/
def emptyStore : Store := fun _ => none

/-- Pointwise update of the user map. -/
def Store.set (s : Store) (tid : Int) (u : User) : Store :=
  fun t => if t = tid then some u else s t

/-- MemoryRepository.GetUser: look the id up; a copy of the stored user is
returned, or ErrUserNotFound. -/
def getUser (s : Store) (tid : Int) : Except Err User :=
  match s tid with
  | some u => .ok u
  | none => .error .userNotFound

/-- MemoryRepository.SaveUser: sets UpdatedAt to the current time and stores
a copy of the user under its TelegramID.  It never fails. -/
def saveUser (s : Store) (now : Nat) (u : User) : Store :=
  s.set u.telegramID { u with updatedAt := now }

/-- MemoryRepository.UpdatePreferences: merges the non-empty fields of the
preferences into the stored user and refreshes UpdatedAt. -/
def updatePreferences (s : Store) (now : Nat) (tid : Int) (prefs : Preferences) :
    Except Err Unit × Store :=
  match s tid with
  | none => (.error .userNotFound, s)
  | some u =>
    let u1 := if prefs.kindleEmail ≠ "" then { u with kindleEmail := prefs.kindleEmail } else u
    let u2 := if prefs.language ≠ "" then { u1 with language := prefs.language } else u1
    (.ok (), s.set tid { u2 with updatedAt := now })

/-- Two's-complement wraparound of a 64-bit signed integer, the arithmetic
of Go's int on the 64-bit deployment targets: the result always lies in
the interval from -(2 ^ 63) up to 2 ^ 63 - 1. -/
def wrapInt64 (n : Int) : Int :=
  (n + 2 ^ 63) % 2 ^ 64 - 2 ^ 63

/-- MemoryRepository.IncrementBooksSent: adds one to BooksSent — a Go int,
so with 64-bit wraparound — and refreshes UpdatedAt. -/
def incrementBooksSent (s : Store) (now : Nat) (tid : Int) : Except Err Unit × Store :=
  match s tid with
  | none => (.error .userNotFound, s)
  | some u =>
    (.ok (), s.set tid { u with booksSent := wrapInt64 (u.booksSent + 1), updatedAt := now })

/-- MemoryRepository.UpdateLastActive: sets LastActive to the current time
and changes nothing else. -/
def updateLastActive (s : Store) (now : Nat) (tid : Int) : Except Err Unit × Store :=
  match s tid with
  | none => (.error .userNotFound, s)
  | some u => (.ok (), s.set tid { u with lastActive := now })

/-- The required Kindle address suffix used by ValidateKindleEmail. -/
def kindleSuffix : String := "@kindle.com"

/-- ValidateKindleEmail from internal/user/manager.go.  The Go code rejects
the empty string, then rejects when the length is below 11 or the final 11
characters differ from the suffix, then rejects when the length is exactly 11
(empty local part). -/
def validateKindleEmail (email : String) : Except Err Unit :=
  if email = "" then .error .invalidEmail
  else if email.data.length < 11 then .error .invalidEmail
  else if String.mk (email.data.drop (email.data.length - 11)) ≠ kindleSuffix then
    .error .invalidEmail
  else if email.data.length = 11 then .error .invalidEmail
  else .ok ()

/-- detectLanguage from internal/user/manager.go (the helper used by
Manager.GetOrCreateUser): when the code has at least two characters and its
first two characters are exactly "ru" the result is "ru", otherwise "en". -/
def detectLanguage (langCode : String) : String :=
  if 2 ≤ langCode.data.length then
    if String.mk (langCode.data.take 2) = "ru" then "ru" else "en"
  else "en"

/-- DetectLanguage from internal/i18n/i18n.go: lowercase the tag, keep the
text before the first dash, and return it when it is a supported language,
otherwise the default "en". -/
def i18nDetectLanguage (telegramLangCode : String) : String :=
  let lang := String.mk (telegramLangCode.data.map Char.toLower)
  let lang :=
    match lang.data.findIdx? (· = '-') with
    | some idx => String.mk (lang.data.take idx)
    | none => lang
  if lang = "en" ∨ lang = "ru" then lang else "en"

/-- Manager.GetOrCreateUser from internal/user/manager.go.  When the user
exists, a copy with refreshed LastActive is returned and the store records
the refreshed LastActive; otherwise a fresh user is created with language
detected from the hint and saved. -/
def getOrCreateUser (s : Store) (now : Nat) (tid : Int)
    (username firstName lastName langCode : String) : Except Err User × Store :=
  match s tid with
  | some u =>
    (.ok { u with lastActive := now }, (updateLastActive s now tid).2)
  | none =>
    let user : User :=
      { id := tid, telegramID := tid, username := username, firstName := firstName,
        lastName := lastName, kindleEmail := "", language := detectLanguage langCode,
        createdAt := now, updatedAt := now, booksSent := 0, lastActive := now,
        isActive := true, isBanned := false }
    (.ok user, saveUser s now user)

/-- Manager.SetKindleEmail: validate, then update preferences with only the
email field set. -/
def setKindleEmail (s : Store) (now : Nat) (tid : Int) (email : String) :
    Except Err Unit × Store :=
  match validateKindleEmail email with
  | .error e => (.error e, s)
  | .ok _ => updatePreferences s now tid ⟨email, "", ""⟩

/-- Manager.SetLanguage: update preferences with only the language field
set. -/
def setLanguage (s : Store) (now : Nat) (tid : Int) (language : String) :
    Except Err Unit × Store :=
  updatePreferences s now tid ⟨"", language, ""⟩

/-- Manager.RecordBookSent: delegate to IncrementBooksSent. -/
def recordBookSent (s : Store) (now : Nat) (tid : Int) : Except Err Unit × Store :=
  incrementBooksSent s now tid

lemma data_eq_nil_iff (s : String) : s.data = [] ↔ s = "" :=
  ⟨fun h => String.ext (h.trans rfl), fun h => h ▸ rfl⟩

lemma kindleSuffix_data_length : kindleSuffix.data.length = 11 := rfl

lemma validateKindleEmail_error_eq (email : String) (e : Err)
    (h : validateKindleEmail email = .error e) : e = .invalidEmail := by
  unfold validateKindleEmail at h
  split_ifs at h <;> simp_all

/-- C1: ValidateKindleEmail accepts a string iff it is non-empty, ends with
the exact case-sensitive suffix "@kindle.com" and has at least one character
before that suffix; in particular "@kindle.com" itself is rejected,
"x@kindle.com" is accepted, and "a@gmail.com" and "a@Kindle.com" are rejected
with the invalid-format error. -/
theorem c1_validate_kindle_email_accepts_iff :
    (∀ s : String, validateKindleEmail s = .ok () ↔
      s ≠ "" ∧ ∃ p : String, p ≠ "" ∧ s = p ++ kindleSuffix) ∧
    validateKindleEmail "@kindle.com" = .error .invalidEmail ∧
    validateKindleEmail "x@kindle.com" = .ok () ∧
    validateKindleEmail "a@gmail.com" = .error .invalidEmail ∧
    validateKindleEmail "a@Kindle.com" = .error .invalidEmail ∧
    (∀ s e, validateKindleEmail s = .error e → e = .invalidEmail) := by
  refine ⟨fun s => ?_, rfl, rfl, rfl, rfl, fun s e h => validateKindleEmail_error_eq s e h⟩
  unfold validateKindleEmail
  split_ifs with h1 h2 h3 h4
  · simp [h1]
  · refine iff_of_false (by simp) ?_
    rintro ⟨hs, p, hp, rfl⟩
    rw [String.data_append, List.length_append, kindleSuffix_data_length] at h2
    omega
  · refine iff_of_false (by simp) ?_
    rintro ⟨hs, p, hp, rfl⟩
    apply h3
    rw [String.data_append, List.length_append, kindleSuffix_data_length,
      Nat.add_sub_cancel, List.drop_left]
  · refine iff_of_false (by simp) ?_
    rintro ⟨hs, p, hp, rfl⟩
    rw [String.data_append, List.length_append, kindleSuffix_data_length] at h4
    have hnil : p.data = [] := by
      have := List.length_eq_zero.mp (by omega : p.data.length = 0)
      exact this
    exact hp ((data_eq_nil_iff p).mp hnil)
  · rw [not_not] at h3
    have hlen : 12 ≤ s.data.length := by omega
    refine iff_of_true rfl ⟨h1, String.mk (s.data.take (s.data.length - 11)), ?_, ?_⟩
    · intro hcontra
      have : s.data.take (s.data.length - 11) = [] :=
        (data_eq_nil_iff _).mpr hcontra
      have hlt : s.data.length - 11 ≤ s.data.length := Nat.sub_le _ _
      have := congrArg List.length this
      rw [List.length_take] at this
      simp only [List.length_nil] at this
      omega
    · apply String.ext
      have hdrop : s.data.drop (s.data.length - 11) = kindleSuffix.data :=
        congrArg String.data h3
      rw [String.data_append]
      change s.data = s.data.take (s.data.length - 11) ++ kindleSuffix.data
      rw [← hdrop, List.take_append_drop]

/-- C1 witness: the acceptance criterion applied at "user@kindle.com", and a
concrete rejection carrying the invalid-format error. -/
theorem c1_witness :
    validateKindleEmail "user@kindle.com" = .ok () :=
  (c1_validate_kindle_email_accepts_iff.1 "user@kindle.com").mpr
    ⟨by decide, "user", by decide, rfl⟩

/-- A concrete user and store used to witness the hypothesis-bearing
theorems on concrete inputs. -/
def demoUser : User :=
  { id := 1, telegramID := 1, username := "u", firstName := "f", lastName := "l",
    kindleEmail := "", language := "en", createdAt := 0, updatedAt := 0,
    booksSent := 0, lastActive := 0, isActive := true, isBanned := false }

/-- A store holding exactly demoUser under id 1. -/
def demoStore : Store := Store.set emptyStore 1 demoUser

/-- C2: when the candidate email is rejected by the validation rule,
SetKindleEmail returns the invalid-format error and the store is exactly
unchanged, so the stored profile keeps its deliveryEmail and updatedAt. -/
theorem c2_set_kindle_email_rejected_no_mutation
    (s : Store) (now : Nat) (tid : Int) (email : String) (u : User) (e : Err)
    (hstored : s tid = some u) (hrej : validateKindleEmail email = .error e) :
    setKindleEmail s now tid email = (.error Err.invalidEmail, s) := by
  have he := validateKindleEmail_error_eq email e hrej
  subst he
  unfold setKindleEmail
  rw [hrej]

/-- C2 witness: a rejected email against the demo store leaves it untouched. -/
theorem c2_witness :
    setKindleEmail demoStore 5 1 "resource-wrong@gmail.com" = (.error Err.invalidEmail, demoStore) :=
  c2_set_kindle_email_rejected_no_mutation demoStore 5 1 "resource-wrong@gmail.com" demoUser
    Err.invalidEmail rfl rfl

/-- C3: a successful preference update merges exactly the non-empty fields of
the partial into the stored profile, refreshes updatedAt, and changes nothing
else: a partial with only language set leaves kindleEmail unchanged and vice
versa, and every other field and every other id are untouched. -/
theorem c3_update_preferences_partial_merge
    (s : Store) (now : Nat) (tid : Int) (p : Preferences) (u : User)
    (hstored : s tid = some u) :
    (updatePreferences s now tid p).1 = .ok () ∧
    (updatePreferences s now tid p).2 tid = some
      { u with kindleEmail := if p.kindleEmail ≠ "" then p.kindleEmail else u.kindleEmail,
               language := if p.language ≠ "" then p.language else u.language,
               updatedAt := now } ∧
    (∀ t, t ≠ tid → (updatePreferences s now tid p).2 t = s t) := by
  by_cases hk : p.kindleEmail = "" <;> by_cases hl : p.language = "" <;>
    simp [updatePreferences, hstored, Store.set, hk, hl] <;>
    intro t ht <;> simp [ht]

/-- C3 witness: updating only the language of the demo user keeps its
delivery email and refreshes updatedAt. -/
theorem c3_witness :
    (updatePreferences demoStore 7 1 ⟨"", "ru", ""⟩).1 = .ok () ∧
    (updatePreferences demoStore 7 1 ⟨"", "ru", ""⟩).2 1 = some
      { demoUser with
        kindleEmail := if ("" : String) ≠ "" then "" else demoUser.kindleEmail,
        language := if ("ru" : String) ≠ "" then "ru" else demoUser.language,
        updatedAt := 7 } ∧
    (∀ t, t ≠ 1 → (updatePreferences demoStore 7 1 ⟨"", "ru", ""⟩).2 t = demoStore t) :=
  c3_update_preferences_partial_merge demoStore 7 1 ⟨"", "ru", ""⟩ demoUser rfl

/-- C10: a successful UpdateLastActive call changes only the LastActive field
of the stored profile: every other field, in particular UpdatedAt, keeps its
previous value, and every other id is untouched. -/
theorem c10_update_last_active_only_last_active
    (s : Store) (now : Nat) (tid : Int) (u : User)
    (hstored : s tid = some u) :
    (updateLastActive s now tid).1 = .ok () ∧
    (∃ u', (updateLastActive s now tid).2 tid = some u' ∧
      u'.lastActive = now ∧ u'.id = u.id ∧ u'.telegramID = u.telegramID ∧
      u'.username = u.username ∧ u'.firstName = u.firstName ∧ u'.lastName = u.lastName ∧
      u'.kindleEmail = u.kindleEmail ∧ u'.language = u.language ∧
      u'.createdAt = u.createdAt ∧ u'.updatedAt = u.updatedAt ∧
      u'.booksSent = u.booksSent ∧ u'.isActive = u.isActive ∧ u'.isBanned = u.isBanned) ∧
    (∀ t, t ≠ tid → (updateLastActive s now tid).2 t = s t) := by
  refine ⟨?_, ⟨{ u with lastActive := now }, ?_, ?_, rfl, rfl, rfl, rfl, rfl, rfl, rfl,
    rfl, rfl, rfl, rfl, rfl⟩, ?_⟩ <;>
    simp [updateLastActive, hstored, Store.set]
  intro t ht
  simp [ht]

/-- C10 witness: touching the demo user changes only its LastActive. -/
theorem c10_witness :
    (updateLastActive demoStore 9 1).1 = .ok () ∧
    (∃ u', (updateLastActive demoStore 9 1).2 1 = some u' ∧
      u'.lastActive = 9 ∧ u'.id = demoUser.id ∧ u'.telegramID = demoUser.telegramID ∧
      u'.username = demoUser.username ∧ u'.firstName = demoUser.firstName ∧
      u'.lastName = demoUser.lastName ∧
      u'.kindleEmail = demoUser.kindleEmail ∧ u'.language = demoUser.language ∧
      u'.createdAt = demoUser.createdAt ∧ u'.updatedAt = demoUser.updatedAt ∧
      u'.booksSent = demoUser.booksSent ∧ u'.isActive = demoUser.isActive ∧
      u'.isBanned = demoUser.isBanned) ∧
    (∀ t, t ≠ 1 → (updateLastActive demoStore 9 1).2 t = demoStore t) :=
  c10_update_last_active_only_last_active demoStore 9 1 demoUser rfl

/-- C4 counterexample: for the locale hint "RU" the lowercase-primary-subtag
detection rule (DetectLanguage of internal/i18n) yields "ru", but the profile
created by GetOrCreateUser gets language "en", because the user package
helper detectLanguage compares the first two characters case-sensitively. -/
theorem c4_counterexample :
    (getOrCreateUser emptyStore 0 1 "u" "f" "l" "RU").1.toOption.map User.language
      = some "en" ∧
    i18nDetectLanguage "RU" = "ru" ∧
    (getOrCreateUser emptyStore 0 1 "u" "f" "l" "RU").1.toOption.map User.language
      ≠ some (i18nDetectLanguage "RU") := by
  refine ⟨rfl, by decide, by decide⟩

/-- C4 amended: the language assigned to a newly created profile is
detectLanguage of the hint, which returns "ru" exactly when the hint has at
least two characters and its first two characters are exactly "ru"
(case-sensitively, with no subtag split and no lowercasing), and "en" in
every other case. -/
theorem c4_created_language_eq_detect
    (s : Store) (now : Nat) (tid : Int) (un fn ln lc : String)
    (hnew : s tid = none) :
    (getOrCreateUser s now tid un fn ln lc).1.toOption.map User.language
      = some (detectLanguage lc) ∧
    detectLanguage lc =
      (if 2 ≤ lc.data.length ∧ String.mk (lc.data.take 2) = "ru" then "ru" else "en") := by
  constructor
  · simp only [getOrCreateUser, hnew]
    rfl
  · by_cases h2 : 2 ≤ lc.data.length <;>
      by_cases hr : String.mk (lc.data.take 2) = "ru" <;>
      simp [detectLanguage, h2, hr]

/-- C4 witness: a fresh profile created with hint "ru-RU" carries the
language computed by detectLanguage. -/
theorem c4_witness :
    (getOrCreateUser emptyStore 0 2 "u" "f" "l" "ru-RU").1.toOption.map User.language
      = some (detectLanguage "ru-RU") ∧
    detectLanguage "ru-RU" =
      (if 2 ≤ ("ru-RU" : String).data.length ∧
          String.mk (("ru-RU" : String).data.take 2) = "ru" then "ru" else "en") :=
  c4_created_language_eq_detect emptyStore 0 2 "u" "f" "l" "ru-RU" rfl

/-- C5: get-or-create is idempotent per id: when the id is absent the call
stores exactly one profile for it, with creation time equal to the call
clock, touching no other id; and whenever the id already has a stored
profile, a further call returns that same profile (only LastActive
refreshed), keeps the creation timestamp identical, and creates nothing
new. -/
theorem c5_get_or_create_idempotent :
    (∀ (s : Store) (now : Nat) (tid : Int) (un fn ln lc : String), s tid = none →
      ∃ u₁, (getOrCreateUser s now tid un fn ln lc).1 = .ok u₁ ∧
        (getOrCreateUser s now tid un fn ln lc).2 tid = some u₁ ∧
        u₁.createdAt = now ∧
        ∀ t, t ≠ tid → (getOrCreateUser s now tid un fn ln lc).2 t = s t) ∧
    (∀ (s : Store) (now : Nat) (tid : Int) (un fn ln lc : String) (u : User),
      s tid = some u →
      (getOrCreateUser s now tid un fn ln lc).1 = .ok { u with lastActive := now } ∧
      (getOrCreateUser s now tid un fn ln lc).2 tid = some { u with lastActive := now } ∧
      ({ u with lastActive := now } : User).createdAt = u.createdAt ∧
      ∀ t, t ≠ tid → (getOrCreateUser s now tid un fn ln lc).2 t = s t) := by
  constructor
  · intro s now tid un fn ln lc hnew
    unfold getOrCreateUser
    rw [hnew]
    refine ⟨_, rfl, ?_, rfl, ?_⟩
    · simp [saveUser, Store.set]
    · intro t ht
      simp [saveUser, Store.set, ht]
  · intro s now tid un fn ln lc u hstored
    unfold getOrCreateUser
    rw [hstored]
    refine ⟨rfl, ?_, rfl, ?_⟩
    · simp [updateLastActive, hstored, Store.set]
    · intro t ht
      simp [updateLastActive, hstored, Store.set, ht]

/-- C5 witness: creating id 3 in the empty store then calling again returns
the same profile with the same creation timestamp. -/
theorem c5_witness :
    (∃ u₁, (getOrCreateUser emptyStore 4 3 "u" "f" "l" "en").1 = .ok u₁ ∧
      (getOrCreateUser emptyStore 4 3 "u" "f" "l" "en").2 3 = some u₁ ∧
      u₁.createdAt = 4 ∧
      ∀ t, t ≠ 3 → (getOrCreateUser emptyStore 4 3 "u" "f" "l" "en").2 t = emptyStore t) ∧
    ((getOrCreateUser demoStore 8 1 "u2" "f2" "l2" "ru").1
        = .ok { demoUser with lastActive := 8 } ∧
      (getOrCreateUser demoStore 8 1 "u2" "f2" "l2" "ru").2 1
        = some { demoUser with lastActive := 8 } ∧
      ({ demoUser with lastActive := 8 } : User).createdAt = demoUser.createdAt ∧
      ∀ t, t ≠ 1 → (getOrCreateUser demoStore 8 1 "u2" "f2" "l2" "ru").2 t = demoStore t) :=
  ⟨c5_get_or_create_idempotent.1 emptyStore 4 3 "u" "f" "l" "en" rfl,
   c5_get_or_create_idempotent.2 demoStore 8 1 "u2" "f2" "l2" "ru" demoUser rfl⟩

/-- Core operations of the Manager and Store that can touch a stored
profile, used to state the delivery-counter invariant over arbitrary
sequences. -/
inductive Op where
  | opGetOrCreate (tid : Int) (now : Nat) (un fn ln lc : String)
  | opSetEmail (tid : Int) (now : Nat) (email : String)
  | opSetLanguage (tid : Int) (now : Nat) (lang : String)
  | opRecordBookSent (tid : Int) (now : Nat)
  | opTouch (tid : Int) (now : Nat)

/-- The store after running one operation. -/
def applyOp (s : Store) : Op → Store
  | .opGetOrCreate tid now un fn ln lc => (getOrCreateUser s now tid un fn ln lc).2
  | .opSetEmail tid now email => (setKindleEmail s now tid email).2
  | .opSetLanguage tid now lang => (setLanguage s now tid lang).2
  | .opRecordBookSent tid now => (recordBookSent s now tid).2
  | .opTouch tid now => (updateLastActive s now tid).2

/-- The store after running a sequence of operations. -/
def applyOps (s : Store) : List Op → Store
  | [] => s
  | op :: rest => applyOps (applyOp s op) rest

/-- Whether an operation is a RecordBookSent on the given id that succeeds
against the given store. -/
def isSuccessfulRecord (s : Store) (tid : Int) : Op → Bool
  | .opRecordBookSent t now =>
    match (recordBookSent s now t).1 with
    | .ok _ => t = tid
    | .error _ => false
  | _ => false

/-- The number of successful RecordBookSent calls on the given id along a
sequence of operations. -/
def countSuccRecords (tid : Int) : Store → List Op → Nat
  | _, [] => 0
  | s, op :: rest =>
    (if isSuccessfulRecord s tid op then 1 else 0) + countSuccRecords tid (applyOp s op) rest

lemma booksSent_step (s : Store) (tid : Int) (u : User) (op : Op)
    (h : s tid = some u) :
    ∃ u', applyOp s op tid = some u' ∧
      u'.booksSent =
        (if isSuccessfulRecord s tid op then wrapInt64 (u.booksSent + 1) else u.booksSent) := by
  cases op with
  | opGetOrCreate t now un fn ln lc =>
    by_cases ht : t = tid
    · subst ht
      refine ⟨{ u with lastActive := now }, ?_, by simp [isSuccessfulRecord]⟩
      simp [applyOp, getOrCreateUser, h, updateLastActive, Store.set]
    · refine ⟨u, ?_, by simp [isSuccessfulRecord]⟩
      cases hs : s t with
      | some v =>
        simp [applyOp, getOrCreateUser, hs, updateLastActive, Store.set, Ne.symm ht, h]
      | none =>
        simp [applyOp, getOrCreateUser, hs, saveUser, Store.set, Ne.symm ht, h]
  | opSetEmail t now email =>
    cases hv : validateKindleEmail email with
    | error e =>
      refine ⟨u, ?_, by simp [isSuccessfulRecord]⟩
      simp [applyOp, setKindleEmail, hv, h]
    | ok _ =>
      by_cases ht : t = tid
      · subst ht
        have hne : email ≠ "" := by
          intro he
          subst he
          simp [validateKindleEmail] at hv
        refine ⟨{ u with kindleEmail := email, updatedAt := now }, ?_,
          by simp [isSuccessfulRecord]⟩
        simp [applyOp, setKindleEmail, hv, updatePreferences, h, Store.set, hne]
      · refine ⟨u, ?_, by simp [isSuccessfulRecord]⟩
        cases hs : s t with
        | some v =>
          simp [applyOp, setKindleEmail, hv, updatePreferences, hs, Store.set, Ne.symm ht, h]
        | none =>
          simp [applyOp, setKindleEmail, hv, updatePreferences, hs, h]
  | opSetLanguage t now lang =>
    by_cases ht : t = tid
    · subst ht
      by_cases hl : lang = ""
      · refine ⟨{ u with updatedAt := now }, ?_, by simp [isSuccessfulRecord]⟩
        simp [applyOp, setLanguage, updatePreferences, h, Store.set, hl]
      · refine ⟨{ u with language := lang, updatedAt := now }, ?_,
          by simp [isSuccessfulRecord]⟩
        simp [applyOp, setLanguage, updatePreferences, h, Store.set, hl]
    · refine ⟨u, ?_, by simp [isSuccessfulRecord]⟩
      cases hs : s t with
      | some v =>
        simp [applyOp, setLanguage, updatePreferences, hs, Store.set, Ne.symm ht, h]
      | none =>
        simp [applyOp, setLanguage, updatePreferences, hs, h]
  | opRecordBookSent t now =>
    by_cases ht : t = tid
    · subst ht
      refine ⟨{ u with booksSent := wrapInt64 (u.booksSent + 1), updatedAt := now }, ?_, ?_⟩
      · simp [applyOp, recordBookSent, incrementBooksSent, h, Store.set]
      · simp [isSuccessfulRecord, recordBookSent, incrementBooksSent, h]
    · refine ⟨u, ?_, ?_⟩
      · cases hs : s t with
        | some v =>
          simp [applyOp, recordBookSent, incrementBooksSent, hs, Store.set, Ne.symm ht, h]
        | none =>
          simp [applyOp, recordBookSent, incrementBooksSent, hs, h]
      · cases hs : s t with
        | some v => simp [isSuccessfulRecord, recordBookSent, incrementBooksSent, hs, ht]
        | none => simp [isSuccessfulRecord, recordBookSent, incrementBooksSent, hs]
  | opTouch t now =>
    by_cases ht : t = tid
    · subst ht
      refine ⟨{ u with lastActive := now }, ?_, by simp [isSuccessfulRecord]⟩
      simp [applyOp, updateLastActive, h, Store.set]
    · refine ⟨u, ?_, by simp [isSuccessfulRecord]⟩
      cases hs : s t with
      | some v => simp [applyOp, updateLastActive, hs, Store.set, Ne.symm ht, h]
      | none => simp [applyOp, updateLastActive, hs, h]

lemma wrapInt64_bounds (x : Int) :
    -(2 ^ 63) ≤ wrapInt64 x ∧ wrapInt64 x < 2 ^ 63 := by
  unfold wrapInt64
  constructor <;> omega

lemma wrapInt64_eq_self {n : Int} (h1 : -(2 ^ 63) ≤ n) (h2 : n < 2 ^ 63) :
    wrapInt64 n = n := by
  unfold wrapInt64
  omega

lemma wrapInt64_absorb (x k : Int) : wrapInt64 (wrapInt64 x + k) = wrapInt64 (x + k) := by
  unfold wrapInt64
  omega

/-- The value of a counter after n wrapping increments from b. -/
def chainAdd : Nat → Int → Int
  | 0, b => b
  | n + 1, b => chainAdd n (wrapInt64 (b + 1))

lemma chainAdd_eq (n : Nat) : ∀ b : Int, -(2 ^ 63) ≤ b → b < 2 ^ 63 →
    chainAdd n b = wrapInt64 (b + n) := by
  induction n with
  | zero =>
    intro b h1 h2
    show b = wrapInt64 (b + (0 : Nat))
    rw [show b + ((0 : Nat) : Int) = b by push_cast; ring, wrapInt64_eq_self h1 h2]
  | succ n ih =>
    intro b h1 h2
    calc chainAdd (n + 1) b = chainAdd n (wrapInt64 (b + 1)) := rfl
      _ = wrapInt64 (wrapInt64 (b + 1) + n) :=
          ih _ (wrapInt64_bounds (b + 1)).1 (wrapInt64_bounds (b + 1)).2
      _ = wrapInt64 (b + 1 + n) := wrapInt64_absorb _ _
      _ = wrapInt64 (b + ((n + 1 : Nat) : Int)) := by push_cast; ring_nf

lemma booksSent_fold (tid : Int) (l : List Op) : ∀ (s : Store) (u : User), s tid = some u →
    ∃ u', applyOps s l tid = some u' ∧
      u'.booksSent = chainAdd (countSuccRecords tid s l) u.booksSent := by
  induction l with
  | nil =>
    intro s u h
    exact ⟨u, h, by simp [applyOps, countSuccRecords, chainAdd]⟩
  | cons op rest ih =>
    intro s u h
    obtain ⟨u1, h1, hb⟩ := booksSent_step s tid u op h
    obtain ⟨u', h', hb'⟩ := ih (applyOp s op) u1 h1
    refine ⟨u', by simpa [applyOps] using h', ?_⟩
    rw [hb', hb]
    by_cases hs : isSuccessfulRecord s tid op
    · rw [show countSuccRecords tid s (op :: rest) =
        countSuccRecords tid (applyOp s op) rest + 1 by
          simp [countSuccRecords, hs, Nat.add_comm]]
      simp [hs]
      rfl
    · rw [show countSuccRecords tid s (op :: rest) =
        countSuccRecords tid (applyOp s op) rest by simp [countSuccRecords, hs]]
      simp [hs]

lemma count_replicate (n : Nat) : ∀ (s : Store) (u : User), s 1 = some u →
    countSuccRecords 1 s (List.replicate n (Op.opRecordBookSent 1 0)) = n := by
  induction n with
  | zero =>
    intro s u h
    simp [countSuccRecords]
  | succ n ih =>
    intro s u h
    rw [List.replicate_succ]
    have hsucc : isSuccessfulRecord s 1 (Op.opRecordBookSent 1 0) = true := by
      simp [isSuccessfulRecord, recordBookSent, incrementBooksSent, h]
    have hnext : applyOp s (Op.opRecordBookSent 1 0) 1 =
        some { u with booksSent := wrapInt64 (u.booksSent + 1), updatedAt := 0 } := by
      simp [applyOp, recordBookSent, incrementBooksSent, h, Store.set]
    simp [countSuccRecords, hsucc, ih _ _ hnext, Nat.add_comm]

/-- A sequence of 2 ^ 63 successful increments on the demo user's id, enough
to overflow the 64-bit counter. -/
def overflowOps : List Op := List.replicate (2 ^ 63) (Op.opRecordBookSent 1 0)

/-- C6 counterexample: after 2 ^ 63 successful RecordBookSent calls on the
demo user (initial count 0), the stored 64-bit counter has wrapped to
-(2 ^ 63): it does not equal the initial value plus the number of successful
calls (2 ^ 63), and it has decreased below the initial value. -/
theorem c6_counterexample :
    (applyOps demoStore overflowOps 1).map User.booksSent = some (-(2 ^ 63) : Int) ∧
    demoUser.booksSent + (countSuccRecords 1 demoStore overflowOps : Int) = 2 ^ 63 ∧
    ¬ ((applyOps demoStore overflowOps 1).map User.booksSent =
        some (demoUser.booksSent + (countSuccRecords 1 demoStore overflowOps : Int))) ∧
    (-(2 ^ 63) : Int) < demoUser.booksSent := by
  have hstored : demoStore 1 = some demoUser := rfl
  have hb0 : demoUser.booksSent = 0 := rfl
  have hcount : countSuccRecords 1 demoStore overflowOps = 2 ^ 63 :=
    count_replicate (2 ^ 63) demoStore demoUser hstored
  obtain ⟨u', h', hb⟩ := booksSent_fold 1 overflowOps demoStore demoUser hstored
  have hval : u'.booksSent = -(2 ^ 63) := by
    rw [hb, hcount, hb0, chainAdd_eq (2 ^ 63) 0 (by norm_num) (by norm_num)]
    unfold wrapInt64
    push_cast
  refine ⟨?_, ?_, ?_, ?_⟩
  · rw [h']
    simp only [Option.map_some']
    rw [hval]
  · rw [hb0, hcount]
    push_cast
  · rw [h']
    simp only [Option.map_some', hval, hb0, hcount]
    intro hcontra
    rw [Option.some_inj] at hcontra
    push_cast at hcontra
  · rw [hb0]
    norm_num

/-- C6 amended: over any sequence of core operations, the stored BooksSent
of an existing profile whose counter is a representable 64-bit value equals
the 64-bit wraparound of its initial value plus the number of successful
RecordBookSent calls on that id; in particular it equals the initial value
plus that number exactly whenever the sum stays below 2 ^ 63, and no other
operation changes the counter. -/
theorem c6_books_sent_wrapped_sum
    (tid : Int) (l : List Op) (s : Store) (u : User) (hstored : s tid = some u)
    (hlo : -(2 ^ 63) ≤ u.booksSent) (hhi : u.booksSent < 2 ^ 63) :
    ∃ u', applyOps s l tid = some u' ∧
      u'.booksSent = wrapInt64 (u.booksSent + (countSuccRecords tid s l : Int)) ∧
      (u.booksSent + (countSuccRecords tid s l : Int) < 2 ^ 63 →
        u'.booksSent = u.booksSent + (countSuccRecords tid s l : Int)) := by
  obtain ⟨u', h', hb⟩ := booksSent_fold tid l s u hstored
  refine ⟨u', h', ?_, ?_⟩
  · rw [hb, chainAdd_eq _ _ hlo hhi]
  · intro hlt
    rw [hb, chainAdd_eq _ _ hlo hhi, wrapInt64_eq_self (by omega) hlt]

/-- C6 witness: two successful increments interleaved with other operations
take the demo user from zero to two books sent, with no overflow. -/
theorem c6_witness :
    ∃ u', applyOps demoStore
        [.opRecordBookSent 1 2, .opSetLanguage 1 3 "ru", .opGetOrCreate 1 4 "u" "f" "l" "en",
         .opRecordBookSent 1 5, .opTouch 1 6, .opRecordBookSent 2 7] 1 = some u' ∧
      u'.booksSent = wrapInt64 (demoUser.booksSent +
        (countSuccRecords 1 demoStore
          [.opRecordBookSent 1 2, .opSetLanguage 1 3 "ru", .opGetOrCreate 1 4 "u" "f" "l" "en",
           .opRecordBookSent 1 5, .opTouch 1 6, .opRecordBookSent 2 7] : Int)) ∧
      (demoUser.booksSent +
        (countSuccRecords 1 demoStore
          [.opRecordBookSent 1 2, .opSetLanguage 1 3 "ru", .opGetOrCreate 1 4 "u" "f" "l" "en",
           .opRecordBookSent 1 5, .opTouch 1 6, .opRecordBookSent 2 7] : Int) < 2 ^ 63 →
        u'.booksSent = demoUser.booksSent +
          (countSuccRecords 1 demoStore
            [.opRecordBookSent 1 2, .opSetLanguage 1 3 "ru", .opGetOrCreate 1 4 "u" "f" "l" "en",
             .opRecordBookSent 1 5, .opTouch 1 6, .opRecordBookSent 2 7] : Int)) :=
  c6_books_sent_wrapped_sum 1
    [.opRecordBookSent 1 2, .opSetLanguage 1 3 "ru", .opGetOrCreate 1 4 "u" "f" "l" "en",
     .opRecordBookSent 1 5, .opTouch 1 6, .opRecordBookSent 2 7] demoStore demoUser rfl
    (by norm_num [demoUser]) (by norm_num [demoUser])

/-- The I18n resolver from internal/i18n/i18n.go: a table indexed by
language then key, and a default language.  Lookup in a Go map that has no
entry for a language behaves like an everywhere-empty inner map, which the
curried Option-valued function captures. -/
structure I18n where
  translations : String → String → Option String
  defaultLang : String

/-- I18n.T from internal/i18n/i18n.go: try the requested language, fall
back to the default language, and return the key itself when both miss.
Sprintf formatting of an argument list is applied by the Go code to a found
template only and never to the returned key, so resolution is modelled
argument-free. -/
def I18n.T (i : I18n) (lang key : String) : String :=
  match i.translations lang key with
  | some template => template
  | none =>
    match i.translations i.defaultLang key with
    | some template => template
    | none => key

/-- An I18n instance with no translations loaded. -/
def emptyI18n : I18n := ⟨fun _ _ => none, "en"⟩

/-- C7 counterexample: the empty key is missing from both tables, T returns
it verbatim, and that returned string is empty — so T does return an empty
string for a missing translation when the key itself is empty. -/
theorem c7_counterexample :
    emptyI18n.translations "en" "" = none ∧
    emptyI18n.translations emptyI18n.defaultLang "" = none ∧
    emptyI18n.T "en" "" = "" :=
  ⟨rfl, rfl, rfl⟩

/-- C7 amended: T returns the requested language's entry when present,
otherwise the default language's entry when present, and otherwise the key
itself verbatim; it is total, and for a missing translation the result is
non-empty whenever the key is non-empty. -/
theorem c7_resolution_chain (i : I18n) (lang key : String) :
    (∀ v, i.translations lang key = some v → i.T lang key = v) ∧
    (i.translations lang key = none →
      ∀ v, i.translations i.defaultLang key = some v → i.T lang key = v) ∧
    (i.translations lang key = none → i.translations i.defaultLang key = none →
      i.T lang key = key) ∧
    (i.translations lang key = none → i.translations i.defaultLang key = none →
      key ≠ "" → i.T lang key ≠ "") := by
  refine ⟨?_, ?_, ?_, ?_⟩ <;> intros <;> simp_all [I18n.T]

/-- C7 witness: a key missing everywhere resolves to itself and is
non-empty. -/
theorem c7_witness :
    emptyI18n.T "ru" "missing" = "missing" ∧ emptyI18n.T "ru" "missing" ≠ "" :=
  ⟨(c7_resolution_chain emptyI18n "ru" "missing").2.2.1 rfl rfl,
   (c7_resolution_chain emptyI18n "ru" "missing").2.2.2 rfl rfl (by decide)⟩

/-- An outbound Telegram message: the chat it goes to and its text. -/
structure Msg where
  chatID : Int
  text : String
deriving DecidableEq

/-- An inbound Telegram message as consumed by Handler.handleMessage:
sender identity, display names, locale hint and text. -/
structure InMsg where
  fromID : Int
  chatID : Int
  firstName : String
  lastName : String
  username : String
  langCode : String
  text : String

/-- Modelled from the spec: tgbotapi's Message.IsCommand, which the router
uses for dispatch; per the repository's tests a message is a command exactly
when its text starts with a slash. -/
def isCommand (text : String) : Bool :=
  match text.data with
  | c :: _ => c = '/'
  | [] => false

/-- Modelled from the spec: tgbotapi's Message.Command — the first word of
the text without the leading slash and without a bot mention. -/
def commandOf (text : String) : String :=
  String.mk (((text.data.drop 1).takeWhile (· ≠ ' ')).takeWhile (· ≠ '@'))

/-- Modelled from the spec: tgbotapi's Message.CommandArguments — the text
after the first space, or empty when there is none. -/
def commandArgumentsOf (text : String) : String :=
  match text.data.dropWhile (· ≠ ' ') with
  | [] => ""
  | _ :: rest => String.mk rest

/-- strings.TrimSpace: whitespace stripped from both ends. -/
def trimSpace (s : String) : String :=
  String.mk (List.rdropWhile Char.isWhitespace (s.data.dropWhile Char.isWhitespace))

/-- Substring occurrence on character lists, checking a prefix match at
every suffix. -/
def containsSub (pat : List Char) : List Char → Bool
  | [] => pat.isEmpty
  | c :: rest => pat.isPrefixOf (c :: rest) || containsSub pat rest

/-- strings.Contains as used by handleSearchQuery. -/
def strContains (s pat : String) : Bool :=
  containsSub pat.data s.data

/-- Handler.sendMessage from internal/bot/handler.go: one localized
outbound message. -/
def sendMessage (i : I18n) (chatID : Int) (language key : String) : Msg :=
  ⟨chatID, i.T language key⟩

/-- Handler.handleStart: welcome message, then either whitelist
instructions plus the email prompt (no endpoint yet) or the search
prompt. -/
def handleStart (i : I18n) (chatID : Int) (user : User) : List Msg :=
  let welcome : Msg := ⟨chatID, i.T user.language "welcome"⟩
  if !user.hasKindleEmail then
    [welcome, ⟨chatID, i.T user.language "whitelist_instructions"⟩,
      ⟨chatID, i.T user.language "kindle_email_prompt"⟩]
  else
    [welcome, ⟨chatID, i.T user.language "search_prompt"⟩]

/-- Handler.handleKindle: with no argument report or prompt; with an
argument trim it and set it as the Kindle email, answering the invalid
message on ErrInvalidEmail, propagating any other error without a reply,
and on success answering the confirmation plus the whitelist reminder. -/
def handleKindle (i : I18n) (s : Store) (now : Nat) (chatID : Int) (user : User)
    (args : String) : List Msg × Store :=
  if args = "" then
    if user.hasKindleEmail then
      ([sendMessage i chatID user.language "kindle_email_current"], s)
    else
      ([sendMessage i chatID user.language "kindle_email_prompt"], s)
  else
    let email := trimSpace args
    match setKindleEmail s now user.telegramID email with
    | (.error e, s') =>
      if e = .invalidEmail then
        ([sendMessage i chatID user.language "kindle_email_invalid"], s')
      else
        ([], s')
    | (.ok _, s') =>
      ([⟨chatID, i.T user.language "kindle_email_set"⟩,
        sendMessage i chatID user.language "whitelist_reminder"], s')

/-- Handler.handleSearchQuery: without a configured endpoint, text that
contains the Kindle suffix is captured as an email-set attempt (invalid
message on any error, confirmation plus reminder on success) and any other
text gets the endpoint-required reply; with an endpoint configured the
searching status and the placeholder reply are sent. -/
def handleSearchQuery (i : I18n) (s : Store) (now : Nat) (chatID : Int) (user : User)
    (text : String) : List Msg × Store :=
  let query := trimSpace text
  if !user.hasKindleEmail then
    if strContains query kindleSuffix then
      match setKindleEmail s now user.telegramID query with
      | (.error _, s') =>
        ([sendMessage i chatID user.language "kindle_email_invalid"], s')
      | (.ok _, s') =>
        ([⟨chatID, i.T user.language "kindle_email_set"⟩,
          sendMessage i chatID user.language "whitelist_reminder"], s')
    else
      ([sendMessage i chatID user.language "kindle_email_required"], s)
  else
    ([⟨chatID, i.T user.language "searching"⟩,
      sendMessage i chatID user.language "search_not_implemented"], s)

/-- Handler.handleCommand: dispatch on the command word; unknown commands
get the unknown-command reply.  The single-reply commands (help, language,
whitelist, settings, cancel) are inlined as their one outbound message. -/
def handleCommand (i : I18n) (s : Store) (now : Nat) (chatID : Int) (user : User)
    (command args : String) : List Msg × Store :=
  if command = "start" then (handleStart i chatID user, s)
  else if command = "help" then ([sendMessage i chatID user.language "help_message"], s)
  else if command = "kindle" then handleKindle i s now chatID user args
  else if command = "language" then
    ([sendMessage i chatID user.language "language_prompt"], s)
  else if command = "whitelist" then
    ([sendMessage i chatID user.language "whitelist_instructions"], s)
  else if command = "settings" then
    ([sendMessage i chatID user.language "settings_display"], s)
  else if command = "cancel" then
    ([sendMessage i chatID user.language "operation_cancelled"], s)
  else ([sendMessage i chatID user.language "unknown_command"], s)

/-- Handler.handleMessage: get or create the sender's profile (the Go call
site passes FirstName, LastName and UserName into the username, firstName
and lastName parameters, in that order), then dispatch commands to
handleCommand and any other text to handleSearchQuery.  A failure of
get-or-create returns the error with no reply. -/
def handleMessage (i : I18n) (s : Store) (now : Nat) (m : InMsg) : List Msg × Store :=
  match getOrCreateUser s now m.fromID m.firstName m.lastName m.username m.langCode with
  | (.error _, s1) => ([], s1)
  | (.ok user, s1) =>
    if isCommand m.text then
      handleCommand i s1 now m.chatID user (commandOf m.text) (commandArgumentsOf m.text)
    else
      handleSearchQuery i s1 now m.chatID user m.text

lemma dropWhile_eq_self_of_prefix {α : Type} {p : α → Bool} {x y : List α}
    (hpre : x <+: y) (hy : y.dropWhile p = y) : x.dropWhile p = x := by
  rw [List.dropWhile_eq_self_iff] at hy ⊢
  intro hl
  obtain ⟨t, rfl⟩ := hpre
  have hl' : 0 < (x ++ t).length := by
    rw [List.length_append]
    omega
  have hhead := hy hl'
  rwa [List.get_append 0 hl] at hhead

lemma trimSpace_idem (s : String) : trimSpace (trimSpace s) = trimSpace s := by
  unfold trimSpace
  have h1 : (List.rdropWhile Char.isWhitespace
      (s.data.dropWhile Char.isWhitespace)).dropWhile Char.isWhitespace =
      List.rdropWhile Char.isWhitespace (s.data.dropWhile Char.isWhitespace) :=
    dropWhile_eq_self_of_prefix (List.rdropWhile_prefix _ _)
      (List.dropWhile_idempotent _ _)
  show String.mk (List.rdropWhile Char.isWhitespace
    ((List.rdropWhile Char.isWhitespace
      (s.data.dropWhile Char.isWhitespace)).dropWhile Char.isWhitespace)) = _
  rw [h1, List.rdropWhile_idempotent]

lemma setKindleEmail_error_cases (s : Store) (now : Nat) (tid : Int) (email : String)
    (e : Err) (s' : Store) (hstored : ∃ w, s tid = some w)
    (h : setKindleEmail s now tid email = (.error e, s')) :
    e = .invalidEmail ∧ s' = s := by
  obtain ⟨w, hw⟩ := hstored
  unfold setKindleEmail at h
  cases hv : validateKindleEmail email with
  | error e0 =>
    rw [hv] at h
    obtain ⟨h1, h2⟩ := Prod.mk.injEq .. ▸ h
    simp only [Except.error.injEq] at h1
    exact ⟨h1 ▸ validateKindleEmail_error_eq email e0 hv, h2.symm⟩
  | ok r =>
    rw [hv] at h
    unfold updatePreferences at h
    rw [hw] at h
    simp at h

lemma strContains_ne_empty {s pat : String} (hpat : pat.data ≠ [])
    (h : strContains s pat = true) : s ≠ "" := by
  intro he
  subst he
  have h2 : containsSub pat.data ([] : List Char) = true := h
  simp only [containsSub, List.isEmpty_iff] at h2
  exact hpat h2

/-- C8: for a non-command message from a user whose profile is stored and
has no delivery endpoint, trimmed text containing "@kindle.com" is handled
exactly like the kindle-command-with-argument path — setKindleEmail is
called and on success the confirmation and the whitelist reminder are the
replies — taking priority over search; any other text gets exactly the
endpoint-required reply with the store untouched, so search is never
reached. -/
theorem c8_opportunistic_endpoint_capture
    (i : I18n) (s : Store) (now : Nat) (chatID : Int) (u : User) (text : String)
    (hstored : ∃ w, s u.telegramID = some w) (hnoemail : u.hasKindleEmail = false) :
    (strContains (trimSpace text) kindleSuffix = true →
      handleSearchQuery i s now chatID u text =
        handleKindle i s now chatID u (trimSpace text) ∧
      (∀ r s', setKindleEmail s now u.telegramID (trimSpace text) = (.ok r, s') →
        handleSearchQuery i s now chatID u text =
          ([⟨chatID, i.T u.language "kindle_email_set"⟩,
            sendMessage i chatID u.language "whitelist_reminder"], s'))) ∧
    (strContains (trimSpace text) kindleSuffix = false →
      handleSearchQuery i s now chatID u text =
        ([sendMessage i chatID u.language "kindle_email_required"], s)) := by
  constructor
  · intro hc
    have hqne : trimSpace text ≠ "" :=
      strContains_ne_empty (by decide) hc
    constructor
    · rcases hsk : setKindleEmail s now u.telegramID (trimSpace text) with ⟨r, s'⟩
      cases r with
      | error e =>
        obtain ⟨he, hs'⟩ := setKindleEmail_error_cases s now u.telegramID
          (trimSpace text) e s' hstored hsk
        subst he
        subst hs'
        simp [handleSearchQuery, handleKindle, hnoemail, hc, hqne, trimSpace_idem, hsk]
      | ok r0 =>
        simp [handleSearchQuery, handleKindle, hnoemail, hc, hqne, trimSpace_idem, hsk]
    · intro r s' hok
      simp [handleSearchQuery, hnoemail, hc, hok]
  · intro hc
    simp [handleSearchQuery, hnoemail, hc]

/-- C8 witness: the demo user has no endpoint; the message text
" x@kindle.com " is captured exactly like the kindle command path. -/
theorem c8_witness :
    handleSearchQuery emptyI18n demoStore 3 1 demoUser " x@kindle.com " =
      handleKindle emptyI18n demoStore 3 1 demoUser (trimSpace " x@kindle.com ") ∧
    handleSearchQuery emptyI18n demoStore 3 1 demoUser "Harry Potter" =
      ([sendMessage emptyI18n 1 demoUser.language "kindle_email_required"], demoStore) :=
  ⟨((c8_opportunistic_endpoint_capture emptyI18n demoStore 3 1 demoUser " x@kindle.com "
      ⟨demoUser, rfl⟩ rfl).1 (by decide)).1,
   (c8_opportunistic_endpoint_capture emptyI18n demoStore 3 1 demoUser "Harry Potter"
      ⟨demoUser, rfl⟩ rfl).2 (by decide)⟩

/-- C9 counterexample: the /start message of a fresh user (no endpoint yet)
produces three outbound replies, not exactly one. -/
theorem c9_counterexample :
    (handleMessage emptyI18n emptyStore 0
      ⟨1, 1, "F", "L", "un", "en", "/start"⟩).1.length = 3 ∧
    (handleMessage emptyI18n emptyStore 0
      ⟨1, 1, "F", "L", "un", "en", "/start"⟩).1.length ≠ 1 := by
  exact ⟨rfl, by decide⟩

lemma getOrCreate_ok_stored (s : Store) (now : Nat) (tid : Int)
    (un fn ln lc : String) (hwf : ∀ t v, s t = some v → v.telegramID = t) :
    ∃ u s1, getOrCreateUser s now tid un fn ln lc = (.ok u, s1) ∧
      ∃ w, s1 u.telegramID = some w := by
  unfold getOrCreateUser
  cases hs : s tid with
  | some v =>
    refine ⟨_, _, rfl, ?_⟩
    have hv : v.telegramID = tid := hwf tid v hs
    simp only [updateLastActive, hs]
    exact ⟨{ v with lastActive := now }, by simp [Store.set, hv]⟩
  | none =>
    refine ⟨_, _, rfl, ?_⟩
    unfold saveUser Store.set
    rw [if_pos rfl]
    exact ⟨_, rfl⟩

lemma handleKindle_reply_bounds (i : I18n) (s : Store) (now : Nat) (chatID : Int)
    (u : User) (args : String) (hstored : ∃ w, s u.telegramID = some w) :
    1 ≤ (handleKindle i s now chatID u args).1.length ∧
    (handleKindle i s now chatID u args).1.length ≤ 3 := by
  by_cases ha : args = ""
  · by_cases he : u.hasKindleEmail <;> simp [handleKindle, ha, he]
  · rcases hsk : setKindleEmail s now u.telegramID (trimSpace args) with ⟨r, s'⟩
    cases r with
    | error e =>
      obtain ⟨he, -⟩ := setKindleEmail_error_cases s now u.telegramID
        (trimSpace args) e s' hstored hsk
      subst he
      simp [handleKindle, ha, hsk]
    | ok r0 => simp [handleKindle, ha, hsk]

lemma handleSearchQuery_reply_bounds (i : I18n) (s : Store) (now : Nat) (chatID : Int)
    (u : User) (text : String) :
    1 ≤ (handleSearchQuery i s now chatID u text).1.length ∧
    (handleSearchQuery i s now chatID u text).1.length ≤ 3 := by
  by_cases he : u.hasKindleEmail
  · simp [handleSearchQuery, he]
  · by_cases hc : strContains (trimSpace text) kindleSuffix
    · rcases hsk : setKindleEmail s now u.telegramID (trimSpace text) with ⟨r, s'⟩
      cases r <;> simp [handleSearchQuery, he, hc, hsk]
    · simp [handleSearchQuery, he, hc]

lemma handleCommand_reply_bounds (i : I18n) (s : Store) (now : Nat) (chatID : Int)
    (u : User) (cmd args : String) (hstored : ∃ w, s u.telegramID = some w) :
    1 ≤ (handleCommand i s now chatID u cmd args).1.length ∧
    (handleCommand i s now chatID u cmd args).1.length ≤ 3 := by
  unfold handleCommand
  split_ifs with h1 h2 h3 h4 h5 h6 h7
  · by_cases he : u.hasKindleEmail <;> simp [handleStart, he]
  · simp
  · exact handleKindle_reply_bounds i s now chatID u args hstored
  · simp
  · simp
  · simp
  · simp
  · simp

/-- C9 amended: over any store in which every stored profile sits under its
own Telegram id, every message dispatched by the router produces at least
one and at most three outbound replies — not always exactly one: the /start
path for a user with no endpoint yields three. -/
theorem c9_message_reply_bounds (i : I18n) (s : Store) (now : Nat) (m : InMsg)
    (hwf : ∀ t v, s t = some v → v.telegramID = t) :
    1 ≤ (handleMessage i s now m).1.length ∧
    (handleMessage i s now m).1.length ≤ 3 := by
  obtain ⟨u, s1, hg, hstored⟩ := getOrCreate_ok_stored s now m.fromID
    m.firstName m.lastName m.username m.langCode hwf
  unfold handleMessage
  rw [hg]
  by_cases hcmd : isCommand m.text
  · simpa [hcmd] using handleCommand_reply_bounds i s1 now m.chatID u
      (commandOf m.text) (commandArgumentsOf m.text) hstored
  · simpa [hcmd] using handleSearchQuery_reply_bounds i s1 now m.chatID u m.text

/-- C9 witness: a concrete search message against the empty store gets
between one and three replies. -/
theorem c9_witness :
    1 ≤ (handleMessage emptyI18n emptyStore 0
      ⟨2, 2, "F", "L", "un", "en", "Harry Potter"⟩).1.length ∧
    (handleMessage emptyI18n emptyStore 0
      ⟨2, 2, "F", "L", "un", "en", "Harry Potter"⟩).1.length ≤ 3 :=
  c9_message_reply_bounds emptyI18n emptyStore 0 ⟨2, 2, "F", "L", "un", "en", "Harry Potter"⟩
    (fun t v h => by simp [emptyStore] at h)

end FKB
